import Mathlib

/-!
Verification of the flash-card scheduling engine (`src/core/scheduling.py` and the
data model in `src/database/models/`).

Modelling conventions, chosen once for the whole file:

* Python `int` is embedded as `Int` (arbitrary precision in both).
* A `datetime.date` is embedded as an `Int` counting days from an epoch that falls
  on a Monday, so that Python's `date.weekday()` (0 = Monday .. 6 = Sunday) is
  `d.emod 7`.
* A `datetime.datetime` is embedded as an `Int` counting minutes:
  `datetime.datetime.combine(target_date, datetime.time(hour=h)) + timedelta(minutes=m)`
  becomes `target_date * 1440 + h * 60 + m`.
* The `Schedule.allowed_days` column is a comma separated string in the source and
  every scheduling function immediately splits it (`schedule.allowed_days.split(',')`);
  the embedding carries the split result, a `List String`, directly.
* Calls into Python's global random generator are embedded as explicit oracle
  arguments: `random.randint` inside a loop becomes a function `Nat → Int` giving the
  i-th drawn value, `random.sample(days, k)` becomes a `List String` argument,
  `random.choice(days)` repeated in a loop becomes a `Nat → String` argument, and
  `random.choices(..., k=count)` becomes a `Nat → Nat` argument giving the i-th chosen
  index.  Theorems that depend on the guarantees of those generators (a sample is a
  subset of its population without repetition, a choice is a member of its population,
  etc.) carry the corresponding facts as hypotheses.
* Code that can raise is embedded in `Except String`; an operation that raises inside
  a Python expression (integer division by zero, `randint` on an empty range) becomes
  an explicit `.error` branch at the point of the call.
* The SQLAlchemy session is embedded as the state it contributes to the scheduling
  engine: the list of scheduled datetimes it knows about (for the occupancy check)
  plus the table of flash cards (for the candidate queries).  Mutation becomes
  explicit state passing.
-/

namespace FlashCardsApp

/-- `EventStatus` enum from `src/database/models/schedule.py`. -/
inductive EventStatus where
  | PENDING
  | COMPLETED
  | IGNORED
deriving DecidableEq, Repr

/-- `Scope` enum from `src/database/models/schedule.py`. -/
inductive Scope where
  | GLOBAL
  | CATEGORY
  | CARD
deriving DecidableEq, Repr

/- The `FrequencyMode` enum of `src/database/models/schedule.py` is a `str` enum and
`scheduling.py` compares the column against its members with `==`; the embedding keeps
the field a `String` so that the source's own handling of an unrecognised mode value
(the final `raise ValueError(f"Unknown frequency mode: ...")` branch) stays
expressible. -/
namespace FrequencyMode

def TIMES_PER_WEEK : String := "times_per_week"

def TIMES_PER_DAY : String := "times_per_day"

def FIXED_INTERVAL : String := "fixed_interval"

end FrequencyMode

/-- The fields of the `Schedule` model (`src/database/models/schedule.py`) that the
scheduling engine reads.  `allowed_days` carries the result of
`schedule.allowed_days.split(',')` (see the module comment). -/
structure Schedule where
  uuid : Nat
  scope : Scope
  category_uuid : Option Nat
  flash_card_uuid : Option Nat
  allowed_days : List String
  start_hour : Int
  end_hour : Int
  frequency_mode : String
  times_per_week : Option Int
  min_times_per_day : Option Int
  max_times_per_day : Option Int
  interval_minutes : Option Int
  active : Bool
deriving DecidableEq, Repr

/-- The fields of the `FlashCard` model (`src/database/models/flash_card.py`) that the
scheduling engine reads.  `category_priority` is the priority of the card's resolvable
`category` relationship, `none` when the relationship does not resolve (the case in
which weight computation fails). -/
structure FlashCard where
  uuid : Nat
  category_uuid : Option Nat
  category_priority : Option Int
  difficulty : Int
  active : Bool
deriving DecidableEq, Repr

instance : Inhabited FlashCard := ⟨⟨0, none, none, 5, true⟩⟩

/-- The fields of the `ScheduledEvent` model (`src/database/models/schedule.py`) that
the engine writes. -/
structure ScheduledEvent where
  schedule_uuid : Nat
  flash_card_uuid : Nat
  scheduled_datetime : Int
  status : EventStatus
deriving DecidableEq, Repr

/-- Modelled from the spec: `ScheduledEvent.is_time_slot_available` is called by
`scheduling.py` but is not among the source files (only its call sites are).  Spec §6
specifies the repository operation `isDatetimeOccupied(candidate) -> bool` as an
exact-match occupancy lookup against the existing Occurrences known to the session,
and §8 states that the check also covers Occurrences created earlier in the same
planning run.  The session state is the list of occupied datetimes. -/
def is_time_slot_available (session : List Int) (proposed_time : Int) : Bool :=
  !(session.contains proposed_time)

/-- `calculate_minutes_in_schedule_window` from `src/core/scheduling.py`. -/
def calculate_minutes_in_schedule_window (schedule : Schedule) : Int :=
  (schedule.end_hour - schedule.start_hour) * 60

/-- `distribute_ordered_occurrences` from `src/core/scheduling.py`.  The Python
function raises `ValueError` when the list lengths differ; the association list keeps
the dictionary's insertion order (`dict(zip(allowed_days, daily_occurrences))`). -/
def distribute_ordered_occurrences (schedule : Schedule) (daily_occurrences : List Int) :
    Except String (List (String × Int)) :=
  let allowed_days := schedule.allowed_days
  let num_allowed_days := allowed_days.length
  if daily_occurrences.length ≠ num_allowed_days then
    .error ("Number of daily occurrences (" ++ toString daily_occurrences.length ++
      ") must match number of allowed days (" ++ toString num_allowed_days ++ ")")
  else
    .ok (allowed_days.zip daily_occurrences)

/-- One `distribution[day] += 1` step on the association list embedding of the
distribution dictionary. -/
def bump : List (String × Int) → String → List (String × Int)
  | [], _ => []
  | (k, v) :: rest, day => if k = day then (k, v + 1) :: rest else (k, v) :: bump rest day

/-- `distribute_occurrences` from `src/core/scheduling.py`.  `sample` is the result of
`random.sample(allowed_days, total_occurrences)` (used when the total fits in the
allowed days: the sampled days get one occurrence, the rest keep the zero they were
initialised with) and `choice i` is the i-th result of `random.choice(allowed_days)`
in the loop distributing the remainder. -/
def distribute_occurrences (schedule : Schedule) (total_occurrences : Int)
    (sample : List String) (choice : Nat → String) : List (String × Int) :=
  let allowed_days := schedule.allowed_days
  let num_allowed_days : Int := allowed_days.length
  if total_occurrences ≤ num_allowed_days then
    allowed_days.map (fun day => (day, if day ∈ sample then 1 else 0))
  else
    let remaining := total_occurrences - num_allowed_days
    (List.range remaining.toNat).foldl (fun dist i => bump dist (choice i))
      (allowed_days.map (fun day => (day, 1)))

/-- `distribute_fixed_daily_occurrences` from `src/core/scheduling.py`. -/
def distribute_fixed_daily_occurrences (schedule : Schedule) (times_per_day : Int) :
    List (String × Int) :=
  schedule.allowed_days.map (fun day => (day, times_per_day))

/-- `calculate_total_events_and_daily_counts` from `src/core/scheduling.py`.
`draw i` is the i-th result of `random.randint(min_times, max_times)` in the
list comprehension of the ranged `TIMES_PER_DAY` branch.  Two raising operations are
embedded as explicit error branches at their call sites: `random.randint(a, b)`
raises `ValueError` when `b < a`, and `//` raises `ZeroDivisionError` when the
divisor is zero. -/
def calculate_total_events_and_daily_counts (schedule : Schedule) (draw : Nat → Int) :
    Except String (Int × Option (List Int)) :=
  let allowed_days := schedule.allowed_days
  let num_allowed_days : Int := allowed_days.length
  if schedule.frequency_mode = FrequencyMode.TIMES_PER_WEEK then
    match schedule.times_per_week with
    | none => .error "Times per week schedule must have times_per_week set"
    | some t => .ok (t, none)
  else if schedule.frequency_mode = FrequencyMode.TIMES_PER_DAY then
    match schedule.min_times_per_day, schedule.max_times_per_day with
    | some min_times, some max_times =>
      if min_times = max_times then
        .ok (min_times * num_allowed_days, none)
      else if max_times < min_times then
        .error "empty range for randrange()"
      else
        let times_per_days := (List.range allowed_days.length).map draw
        .ok (times_per_days.sum, some times_per_days)
    | _, _ =>
      .error "Times Per Day schedule must have min_times_per_day and max_times_per_day set"
  else if schedule.frequency_mode = FrequencyMode.FIXED_INTERVAL then
    match schedule.interval_minutes with
    | none => .error "Fixed interval schedule must have interval_minutes set"
    | some iv =>
      if iv = 0 then
        .error "integer division or modulo by zero"
      else
        let minutes_in_window := calculate_minutes_in_schedule_window schedule
        let events_per_day := minutes_in_window.fdiv iv
        .ok (events_per_day * num_allowed_days, none)
  else
    .error ("Unknown frequency mode: " ++ schedule.frequency_mode)

/-- `determine_weekly_event_distribution` from `src/core/scheduling.py`.  The Python
parameter `times_per_days: Any` is either a list or not (`isinstance(times_per_days,
list)`), embedded as an `Option`.  `sample` and `choice` are the random oracles
forwarded to `distribute_occurrences`. -/
def determine_weekly_event_distribution (schedule : Schedule) (amount_of_events : Int)
    (times_per_days : Option (List Int)) (sample : List String) (choice : Nat → String) :
    Except String (List (String × Int)) :=
  let num_allowed_days : Int := schedule.allowed_days.length
  if schedule.frequency_mode = FrequencyMode.TIMES_PER_WEEK then
    .ok (distribute_occurrences schedule amount_of_events sample choice)
  else if schedule.frequency_mode = FrequencyMode.TIMES_PER_DAY then
    match times_per_days with
    | some daily => distribute_ordered_occurrences schedule daily
    | none =>
      let daily_count := amount_of_events.fdiv num_allowed_days
      .ok (distribute_fixed_daily_occurrences schedule daily_count)
  else
    let daily_count := amount_of_events.fdiv num_allowed_days
    .ok (distribute_fixed_daily_occurrences schedule daily_count)

/-- Sum of the values of a distribution dictionary (`sum(distribution.values())`). -/
def sum_values (dist : List (String × Int)) : Int :=
  (dist.map Prod.snd).sum

/-- Concrete fixed-interval schedule used as a witness input: window 09:00-17:00,
interval 60 minutes, three allowed days. -/
def schedFI : Schedule :=
  { uuid := 1, scope := .GLOBAL, category_uuid := none, flash_card_uuid := none,
    allowed_days := ["Mon", "Wed", "Fri"], start_hour := 9, end_hour := 17,
    frequency_mode := FrequencyMode.FIXED_INTERVAL, times_per_week := none,
    min_times_per_day := none, max_times_per_day := none, interval_minutes := some 60,
    active := true }

/-- C7: for every FixedInterval policy with `interval_minutes` present (and nonzero,
so the division is defined), the totals computation returns
`windowMinutes fdiv interval * numAllowedDays` with no per-day list, where
`windowMinutes = (end_hour - start_hour) * 60`. -/
theorem claim_C7 (schedule : Schedule) (draw : Nat → Int) (iv : Int)
    (hmode : schedule.frequency_mode = FrequencyMode.FIXED_INTERVAL)
    (hiv : schedule.interval_minutes = some iv) (hiv0 : iv ≠ 0) :
    calculate_total_events_and_daily_counts schedule draw =
      .ok ((((schedule.end_hour - schedule.start_hour) * 60).fdiv iv) *
        (schedule.allowed_days.length : Int), none) := by
  unfold calculate_total_events_and_daily_counts
  rw [hmode, hiv]
  simp [FrequencyMode.TIMES_PER_WEEK, FrequencyMode.TIMES_PER_DAY,
    FrequencyMode.FIXED_INTERVAL, hiv0, calculate_minutes_in_schedule_window]

/-- Witness for C7: the spec's own instance — window 09:00-17:00 (480 minutes),
interval 60, 3 allowed days gives 8 events per day and a total of 24. -/
theorem claim_C7_witness :
    schedFI.frequency_mode = FrequencyMode.FIXED_INTERVAL ∧
    schedFI.interval_minutes = some 60 ∧ (60 : Int) ≠ 0 ∧
    ((schedFI.end_hour - schedFI.start_hour) * 60).fdiv 60 = 8 ∧
    calculate_total_events_and_daily_counts schedFI (fun _ => 0) = .ok (24, none) := by
  refine ⟨rfl, rfl, by decide, by decide, ?_⟩
  have h := claim_C7 schedFI (fun _ => 0) 60 rfl rfl (by decide)
  rw [h]
  rfl

theorem map_fst_pair (l : List String) (t : Int) :
    (l.map (fun d => (d, t))).map Prod.fst = l := by
  induction l with
  | nil => rfl
  | cons d rest ih => simp only [List.map_cons, ih]

theorem sum_values_map_const (days : List String) (t : Int) :
    sum_values (days.map (fun day => (day, t))) = (days.length : Int) * t := by
  induction days with
  | nil => simp [sum_values]
  | cons d rest ih =>
    simp only [sum_values, List.map_cons, List.map_map, List.sum_cons] at ih ⊢
    rw [ih]
    push_cast [List.length_cons]
    ring

theorem sum_values_indicator_filter (days sample : List String) :
    sum_values (days.map (fun day => (day, if day ∈ sample then (1 : Int) else 0))) =
      ((days.filter (fun day => day ∈ sample)).length : Int) := by
  induction days with
  | nil => simp [sum_values]
  | cons d rest ih =>
    simp only [sum_values, List.map_cons, List.map_map, List.sum_cons] at ih ⊢
    by_cases h : d ∈ sample <;> simp [h, List.filter_cons, ih] <;> push_cast <;> ring

theorem filter_mem_length (days sample : List String) (hd : days.Nodup)
    (hs : sample.Nodup) (hsub : ∀ x ∈ sample, x ∈ days) :
    (days.filter (fun day => day ∈ sample)).length = sample.length := by
  have hperm : (days.filter (fun day => day ∈ sample)).Perm sample := by
    refine (List.perm_ext_iff_of_nodup (hd.filter _) hs).2 ?_
    intro a
    simp only [List.mem_filter, decide_eq_true_eq]
    exact ⟨fun h => h.2, fun h => ⟨hsub a h, h⟩⟩
  exact hperm.length_eq

theorem bump_keys (l : List (String × Int)) (day : String) :
    (bump l day).map Prod.fst = l.map Prod.fst := by
  induction l with
  | nil => rfl
  | cons p rest ih =>
    obtain ⟨k, v⟩ := p
    by_cases h : k = day <;> simp [bump, h, ih]

theorem sum_values_bump (l : List (String × Int)) (day : String)
    (h : day ∈ l.map Prod.fst) : sum_values (bump l day) = sum_values l + 1 := by
  induction l with
  | nil => simp at h
  | cons p rest ih =>
    obtain ⟨k, v⟩ := p
    by_cases hk : k = day
    · simp only [bump, if_pos hk, sum_values, List.map_cons, List.sum_cons]
      ring
    · have hmem : day ∈ rest.map Prod.fst := by
        simp only [List.map_cons] at h
        rcases List.mem_cons.1 h with h' | h'
        · exact absurd h'.symm hk
        · exact h'
      simp only [bump, if_neg hk, sum_values, List.map_cons, List.sum_cons] at ih ⊢
      rw [ih hmem]
      ring

theorem foldl_bump_keys (choice : Nat → String) (l : List (String × Int)) (k : Nat) :
    ((List.range k).foldl (fun dist i => bump dist (choice i)) l).map Prod.fst =
      l.map Prod.fst := by
  induction k with
  | zero => simp
  | succ n ih =>
    rw [List.range_succ, List.foldl_append, List.foldl_cons, List.foldl_nil, bump_keys, ih]

theorem sum_values_foldl_bump (choice : Nat → String) (l : List (String × Int))
    (hc : ∀ i, choice i ∈ l.map Prod.fst) (k : Nat) :
    sum_values ((List.range k).foldl (fun dist i => bump dist (choice i)) l) =
      sum_values l + (k : Int) := by
  induction k with
  | zero => simp
  | succ n ih =>
    rw [List.range_succ, List.foldl_append, List.foldl_cons, List.foldl_nil]
    rw [sum_values_bump _ _ (by rw [foldl_bump_keys]; exact hc n), ih]
    push_cast
    ring

theorem sum_values_zip (days : List String) (daily : List Int)
    (h : daily.length = days.length) : sum_values (days.zip daily) = daily.sum := by
  induction days generalizing daily with
  | nil =>
    cases daily with
    | nil => simp [sum_values]
    | cons a as => simp at h
  | cons d rest ih =>
    cases daily with
    | nil => simp at h
    | cons a as =>
      simp only [List.zip_cons_cons, sum_values, List.map_cons, List.sum_cons,
        List.length_cons] at h ⊢
      have h' : as.length = rest.length := by omega
      have := ih as h'
      simp only [sum_values] at this
      rw [this]

/-- C1: for every valid policy, the day distribution produced by
`determine_weekly_event_distribution` from the outputs of
`calculate_total_events_and_daily_counts` sums exactly to the total, in all three
frequency modes.  The hypotheses on `sample` and `choice` are the guarantees of
`random.sample` / `random.choice` used by the random-weekly distribution. -/
theorem claim_C1 (schedule : Schedule) (draw : Nat → Int)
    (sample : List String) (choice : Nat → String)
    (amount_of_events : Int) (times_per_days : Option (List Int))
    (hcalc : calculate_total_events_and_daily_counts schedule draw =
      .ok (amount_of_events, times_per_days))
    (hnodup : schedule.allowed_days.Nodup)
    (hne : schedule.allowed_days ≠ [])
    (hsample : schedule.frequency_mode = FrequencyMode.TIMES_PER_WEEK →
      amount_of_events ≤ (schedule.allowed_days.length : Int) →
      sample.Nodup ∧ (∀ x ∈ sample, x ∈ schedule.allowed_days) ∧
        sample.length = amount_of_events.toNat ∧ 0 ≤ amount_of_events)
    (hchoice : ∀ i, choice i ∈ schedule.allowed_days) :
    ∃ dist, determine_weekly_event_distribution schedule amount_of_events times_per_days
        sample choice = .ok dist ∧ sum_values dist = amount_of_events := by
  have hlen0 : schedule.allowed_days.length ≠ 0 := fun h => hne (List.eq_nil_of_length_eq_zero h)
  have hlenInt : (schedule.allowed_days.length : Int) ≠ 0 := by exact_mod_cast hlen0
  have hkeys : (schedule.allowed_days.map (fun day => (day, (1 : Int)))).map Prod.fst =
      schedule.allowed_days := map_fst_pair _ _
  simp only [calculate_total_events_and_daily_counts] at hcalc
  simp only [determine_weekly_event_distribution]
  by_cases h1 : schedule.frequency_mode = FrequencyMode.TIMES_PER_WEEK
  · rw [if_pos h1] at hcalc ⊢
    cases htpw : schedule.times_per_week with
    | none => rw [htpw] at hcalc; simp at hcalc
    | some t =>
      rw [htpw] at hcalc
      simp only [Except.ok.injEq, Prod.mk.injEq] at hcalc
      obtain ⟨rfl, rfl⟩ := hcalc
      refine ⟨_, rfl, ?_⟩
      simp only [distribute_occurrences]
      by_cases hcase : t ≤ (schedule.allowed_days.length : Int)
      · obtain ⟨hsN, hsSub, hsLen, hsNonneg⟩ := hsample h1 hcase
        rw [if_pos hcase, sum_values_indicator_filter,
          filter_mem_length _ _ hnodup hsN hsSub, hsLen, Int.toNat_of_nonneg hsNonneg]
      · rw [if_neg hcase,
          sum_values_foldl_bump choice _ (fun i => by rw [hkeys]; exact hchoice i),
          sum_values_map_const, Int.toNat_of_nonneg (by omega)]
        ring
  · rw [if_neg h1] at hcalc ⊢
    by_cases h2 : schedule.frequency_mode = FrequencyMode.TIMES_PER_DAY
    · rw [if_pos h2] at hcalc ⊢
      cases hmn : schedule.min_times_per_day with
      | none =>
        cases hmx : schedule.max_times_per_day with
        | none => rw [hmn, hmx] at hcalc; simp at hcalc
        | some max_times => rw [hmn, hmx] at hcalc; simp at hcalc
      | some min_times =>
        cases hmx : schedule.max_times_per_day with
        | none => rw [hmn, hmx] at hcalc; simp at hcalc
        | some max_times =>
          rw [hmn, hmx] at hcalc
          dsimp only [] at hcalc
          by_cases heq : min_times = max_times
          · rw [if_pos heq] at hcalc
            simp only [Except.ok.injEq, Prod.mk.injEq] at hcalc
            obtain ⟨rfl, rfl⟩ := hcalc
            refine ⟨_, rfl, ?_⟩
            rw [distribute_fixed_daily_occurrences, sum_values_map_const,
              Int.mul_fdiv_cancel _ hlenInt]
            ring
          · rw [if_neg heq] at hcalc
            by_cases hlt : max_times < min_times
            · rw [if_pos hlt] at hcalc; simp at hcalc
            · rw [if_neg hlt] at hcalc
              simp only [Except.ok.injEq, Prod.mk.injEq] at hcalc
              obtain ⟨rfl, rfl⟩ := hcalc
              refine ⟨schedule.allowed_days.zip
                  ((List.range schedule.allowed_days.length).map draw), ?_, ?_⟩
              · dsimp only []
                simp [distribute_ordered_occurrences]
              · exact sum_values_zip _ _ (by simp)
    · rw [if_neg h2] at hcalc ⊢
      by_cases h3 : schedule.frequency_mode = FrequencyMode.FIXED_INTERVAL
      · rw [if_pos h3] at hcalc
        cases hiv : schedule.interval_minutes with
        | none => rw [hiv] at hcalc; simp at hcalc
        | some iv =>
          rw [hiv] at hcalc
          dsimp only [] at hcalc
          by_cases hiv0 : iv = 0
          · rw [if_pos hiv0] at hcalc; simp at hcalc
          · rw [if_neg hiv0] at hcalc
            simp only [Except.ok.injEq, Prod.mk.injEq] at hcalc
            obtain ⟨rfl, rfl⟩ := hcalc
            refine ⟨_, rfl, ?_⟩
            rw [distribute_fixed_daily_occurrences, sum_values_map_const,
              Int.mul_fdiv_cancel _ hlenInt]
            ring
      · rw [if_neg h3] at hcalc
        simp at hcalc

/-- Concrete TimesPerWeek schedule used as a witness input. -/
def schedTPW : Schedule :=
  { uuid := 2, scope := .GLOBAL, category_uuid := none, flash_card_uuid := none,
    allowed_days := ["Mon", "Wed", "Fri"], start_hour := 9, end_hour := 17,
    frequency_mode := FrequencyMode.TIMES_PER_WEEK, times_per_week := some 2,
    min_times_per_day := none, max_times_per_day := none, interval_minutes := none,
    active := true }

/-- Witness for C1 at a concrete TimesPerWeek policy: two occurrences over
Mon/Wed/Fri with sample {Mon, Wed} sum to the total 2. -/
theorem claim_C1_witness :
    calculate_total_events_and_daily_counts schedTPW (fun _ => 1) = .ok (2, none) ∧
    schedTPW.allowed_days.Nodup ∧ schedTPW.allowed_days ≠ [] ∧
    ∃ dist, determine_weekly_event_distribution schedTPW 2 none ["Mon", "Wed"]
        (fun _ => "Mon") = .ok dist ∧ sum_values dist = 2 := by
  refine ⟨rfl, by decide, by decide, ?_⟩
  exact claim_C1 schedTPW (fun _ => 1) ["Mon", "Wed"] (fun _ => "Mon") 2 none rfl
    (by decide) (by decide)
    (fun _ _ => ⟨by decide, by decide, by decide, by decide⟩)
    (fun _ => (by decide : ("Mon" : String) ∈ schedTPW.allowed_days))

/-- Concrete FixedInterval schedule with a present but zero `interval_minutes`. -/
def schedFIzero : Schedule :=
  { schedFI with uuid := 3, interval_minutes := some 0 }

/-- C8 counterexample: a FixedInterval policy whose `interval_minutes` is present
(with value zero) and whose mode is one of the three known modes still makes the
totals computation fail — `minutes_in_window // 0` raises `ZeroDivisionError` in the
source — refuting the claim's "fails if and only if a mode-specific parameter is
missing or the mode is unknown". -/
theorem claim_C8_counterexample :
    (∃ msg, calculate_total_events_and_daily_counts schedFIzero (fun _ => 0) =
      .error msg) ∧
    schedFIzero.interval_minutes ≠ none ∧
    schedFIzero.frequency_mode = FrequencyMode.FIXED_INTERVAL := by
  exact ⟨⟨"integer division or modulo by zero", rfl⟩, by decide, rfl⟩

/-- C8 (amended): the totals computation fails exactly when the mode-specific
parameter is missing, the frequency mode is none of the three known modes, or a
present parameter makes a raising operation fire (`interval_minutes = 0` divides by
zero; `max < min` hands `random.randint` an empty range); in the missing-parameter
cases the error message names the missing field. -/
theorem claim_C8_amended (schedule : Schedule) (draw : Nat → Int) :
    ((∃ msg, calculate_total_events_and_daily_counts schedule draw = .error msg) ↔
      ((schedule.frequency_mode = FrequencyMode.TIMES_PER_WEEK ∧
          schedule.times_per_week = none) ∨
        (schedule.frequency_mode = FrequencyMode.TIMES_PER_DAY ∧
          (schedule.min_times_per_day = none ∨ schedule.max_times_per_day = none ∨
            ∃ mn mx, schedule.min_times_per_day = some mn ∧
              schedule.max_times_per_day = some mx ∧ mx < mn)) ∨
        (schedule.frequency_mode = FrequencyMode.FIXED_INTERVAL ∧
          (schedule.interval_minutes = none ∨ schedule.interval_minutes = some 0)) ∨
        (schedule.frequency_mode ≠ FrequencyMode.TIMES_PER_WEEK ∧
          schedule.frequency_mode ≠ FrequencyMode.TIMES_PER_DAY ∧
          schedule.frequency_mode ≠ FrequencyMode.FIXED_INTERVAL))) ∧
    (schedule.frequency_mode = FrequencyMode.TIMES_PER_WEEK →
      schedule.times_per_week = none →
      calculate_total_events_and_daily_counts schedule draw =
        .error "Times per week schedule must have times_per_week set") ∧
    (schedule.frequency_mode = FrequencyMode.TIMES_PER_DAY →
      (schedule.min_times_per_day = none ∨ schedule.max_times_per_day = none) →
      calculate_total_events_and_daily_counts schedule draw =
        .error "Times Per Day schedule must have min_times_per_day and max_times_per_day set") ∧
    (schedule.frequency_mode = FrequencyMode.FIXED_INTERVAL →
      schedule.interval_minutes = none →
      calculate_total_events_and_daily_counts schedule draw =
        .error "Fixed interval schedule must have interval_minutes set") := by
  unfold calculate_total_events_and_daily_counts
  by_cases h1 : schedule.frequency_mode = FrequencyMode.TIMES_PER_WEEK
  · have h2 : schedule.frequency_mode ≠ FrequencyMode.TIMES_PER_DAY := by
      rw [h1]; simp [FrequencyMode.TIMES_PER_WEEK, FrequencyMode.TIMES_PER_DAY]
    have h3 : schedule.frequency_mode ≠ FrequencyMode.FIXED_INTERVAL := by
      rw [h1]; simp [FrequencyMode.TIMES_PER_WEEK, FrequencyMode.FIXED_INTERVAL]
    cases htpw : schedule.times_per_week with
    | none => simp [h1, h2, h3, FrequencyMode.TIMES_PER_WEEK, FrequencyMode.TIMES_PER_DAY, FrequencyMode.FIXED_INTERVAL, htpw]
    | some t => simp [h1, h2, h3, FrequencyMode.TIMES_PER_WEEK, FrequencyMode.TIMES_PER_DAY, FrequencyMode.FIXED_INTERVAL, htpw]
  · by_cases h2 : schedule.frequency_mode = FrequencyMode.TIMES_PER_DAY
    · have h3 : schedule.frequency_mode ≠ FrequencyMode.FIXED_INTERVAL := by
        rw [h2]; simp [FrequencyMode.TIMES_PER_DAY, FrequencyMode.FIXED_INTERVAL]
      cases hmn : schedule.min_times_per_day with
      | none =>
        cases hmx : schedule.max_times_per_day with
        | none => simp [h1, h2, h3, FrequencyMode.TIMES_PER_WEEK, FrequencyMode.TIMES_PER_DAY, FrequencyMode.FIXED_INTERVAL, hmn, hmx]
        | some mx => simp [h1, h2, h3, FrequencyMode.TIMES_PER_WEEK, FrequencyMode.TIMES_PER_DAY, FrequencyMode.FIXED_INTERVAL, hmn, hmx]
      | some mn =>
        cases hmx : schedule.max_times_per_day with
        | none => simp [h1, h2, h3, FrequencyMode.TIMES_PER_WEEK, FrequencyMode.TIMES_PER_DAY, FrequencyMode.FIXED_INTERVAL, hmn, hmx]
        | some mx =>
          by_cases heq : mn = mx
          · subst heq
            simp [h1, h2, h3, FrequencyMode.TIMES_PER_WEEK, FrequencyMode.TIMES_PER_DAY, FrequencyMode.FIXED_INTERVAL, hmn, hmx]
          · by_cases hlt : mx < mn
            · simp [h1, h2, h3, FrequencyMode.TIMES_PER_WEEK, FrequencyMode.TIMES_PER_DAY, FrequencyMode.FIXED_INTERVAL, hmn, hmx, heq, hlt]
            · simp [h1, h2, h3, FrequencyMode.TIMES_PER_WEEK, FrequencyMode.TIMES_PER_DAY, FrequencyMode.FIXED_INTERVAL, hmn, hmx, heq, hlt]
    · by_cases h3 : schedule.frequency_mode = FrequencyMode.FIXED_INTERVAL
      · cases hiv : schedule.interval_minutes with
        | none => simp [h1, h2, h3, FrequencyMode.TIMES_PER_WEEK, FrequencyMode.TIMES_PER_DAY, FrequencyMode.FIXED_INTERVAL, hiv]
        | some iv =>
          by_cases hiv0 : iv = 0
          · subst hiv0
            simp [h1, h2, h3, FrequencyMode.TIMES_PER_WEEK, FrequencyMode.TIMES_PER_DAY, FrequencyMode.FIXED_INTERVAL, hiv]
          · simp [h1, h2, h3, FrequencyMode.TIMES_PER_WEEK, FrequencyMode.TIMES_PER_DAY, FrequencyMode.FIXED_INTERVAL, hiv, hiv0]
      · simp only [FrequencyMode.TIMES_PER_WEEK, FrequencyMode.TIMES_PER_DAY,
          FrequencyMode.FIXED_INTERVAL] at h1 h2 h3
        simp [h1, h2, h3, FrequencyMode.TIMES_PER_WEEK, FrequencyMode.TIMES_PER_DAY,
          FrequencyMode.FIXED_INTERVAL]

/-- The weekday lookup table of `get_days_until` (`src/core/scheduling.py`): a Python
dict from three-letter day names to weekday numbers (0 = Monday .. 6 = Sunday);
indexing it with any other string raises `KeyError`, embedded as `none`. -/
def day_number (day_name : String) : Option Int :=
  if day_name = "Mon" then some 0
  else if day_name = "Tue" then some 1
  else if day_name = "Wed" then some 2
  else if day_name = "Thu" then some 3
  else if day_name = "Fri" then some 4
  else if day_name = "Sat" then some 5
  else if day_name = "Sun" then some 6
  else none

/-- `get_days_until` from `src/core/scheduling.py`.  Dates are day numbers relative
to a Monday epoch, so Python's `from_date.weekday()` is `from_date.emod 7` (see the
module comment). -/
def get_days_until (from_date : Int) (day_name : String) : Option Int :=
  (day_number day_name).map (fun target_day =>
    let current_day := from_date.emod 7
    let days_ahead := target_day - current_day
    if days_ahead ≤ 0 then days_ahead + 7 else days_ahead)

/-- `get_next_occurrence_dates` from `src/core/scheduling.py`: resolve every key of
the distribution to `today + get_days_until(today, key)`; a key that is not a
three-letter day name raises `KeyError` in the source. -/
def get_next_occurrence_dates (distribution : List (String × Int)) (today : Int) :
    Except String (List (String × Int)) :=
  distribution.mapM (fun p =>
    match get_days_until today p.1 with
    | some days_ahead => .ok (p.1, today + days_ahead)
    | none => .error ("KeyError: " ++ p.1))

/-- The while loop of `_schedule_fixed_interval_event` (`src/core/scheduling.py`):
test `base + current_minute` while `current_minute < minutes_in_window`, advancing by
`interval_minutes` on an occupied slot and breaking out when `interval_minutes` is
absent.  `fuel` bounds the loop; callers supply `minutes_in_window.toNat + 1`, which
the loop never exhausts when the interval is at least one (the counter starts
nonnegative and strictly increases), so the fuel-out branch mirrors the
nontermination that a nonpositive interval would cause in the source. -/
def fixed_interval_scan (session : List Int) (schedule : Schedule) (card : FlashCard)
    (base_time : Int) (minutes_in_window : Int) : Nat → Int → Option ScheduledEvent
  | 0, _ => none
  | fuel + 1, current_minute =>
    if current_minute < minutes_in_window then
      let proposed_time := base_time + current_minute
      if is_time_slot_available session proposed_time then
        some { schedule_uuid := schedule.uuid, flash_card_uuid := card.uuid,
               scheduled_datetime := proposed_time, status := .PENDING }
      else
        match schedule.interval_minutes with
        | some iv =>
          fixed_interval_scan session schedule card base_time minutes_in_window fuel
            (current_minute + iv)
        | none => none
    else
      none

/-- `_schedule_fixed_interval_event` from `src/core/scheduling.py` (the leading
underscore of the source name is dropped).  `start_minute` is the single
`random.randint(5, 25)` draw that seeds the scan. -/
def schedule_fixed_interval_event (session : List Int) (schedule : Schedule)
    (card : FlashCard) (target_date : Int) (minutes_in_window : Int)
    (start_minute : Int) : Option ScheduledEvent :=
  let base_time := target_date * 1440 + schedule.start_hour * 60
  fixed_interval_scan session schedule card base_time minutes_in_window
    (minutes_in_window.toNat + 1) start_minute

/-- `_schedule_random_time_event` from `src/core/scheduling.py` (the leading
underscore of the source name is dropped).  `draws` carries the successive
`random.randint(0, minutes_in_window - 1)` results; the source makes exactly three
attempts, so its behaviour is this function at a three-element `draws`. -/
def schedule_random_time_event (session : List Int) (schedule : Schedule)
    (card : FlashCard) (target_date : Int) (minutes_in_window : Int) :
    List Int → Option ScheduledEvent
  | [] => none
  | random_minute :: rest =>
    let proposed_time := target_date * 1440 + schedule.start_hour * 60 + random_minute
    if is_time_slot_available session proposed_time then
      some { schedule_uuid := schedule.uuid, flash_card_uuid := card.uuid,
             scheduled_datetime := proposed_time, status := .PENDING }
    else
      schedule_random_time_event session schedule card target_date minutes_in_window rest

/-- The `scheduler_func` selection of `schedule_events_for_day`
(`src/core/scheduling.py`): `FIXED_INTERVAL` uses the fixed-interval strategy, every
other mode the random-time strategy.  `rnd` packs the random inputs for whichever
strategy runs: the `randint(5, 25)` seed and the `randint(0, window-1)` draws. -/
def dispatch_strategy (session : List Int) (schedule : Schedule) (card : FlashCard)
    (target_date : Int) (minutes_in_window : Int) (rnd : Int × List Int) :
    Option ScheduledEvent :=
  if schedule.frequency_mode = FrequencyMode.FIXED_INTERVAL then
    schedule_fixed_interval_event session schedule card target_date minutes_in_window rnd.1
  else
    schedule_random_time_event session schedule card target_date minutes_in_window rnd.2

/-- `schedule_events_for_day` from `src/core/scheduling.py`: try each card in order;
on success append the event, `session.add` it (the session state grows by its
datetime) and count it; on the first failure stop for the day.  The function can
never raise, so its result type carries no error case.  `rnds` supplies one random
input per card; the exhausted-`rnds` branch is a modelling artifact that theorems
exclude by requiring enough random inputs. -/
def schedule_events_for_day (session : List Int) (schedule : Schedule)
    (cards_to_schedule : List FlashCard) (target_date : Int) (minutes_in_window : Int)
    (rnds : List (Int × List Int)) : List ScheduledEvent × Nat × List Int :=
  match cards_to_schedule, rnds with
  | [], _ => ([], 0, session)
  | _ :: _, [] => ([], 0, session)
  | card :: rest, rnd :: rnds_rest =>
    match dispatch_strategy session schedule card target_date minutes_in_window rnd with
    | some new_event =>
      let result := schedule_events_for_day
        (session ++ [new_event.scheduled_datetime]) schedule rest target_date
        minutes_in_window rnds_rest
      (new_event :: result.1, result.2.1 + 1, result.2.2)
    | none => ([], 0, session)

/-- The loop of `schedule_events_from_distribution` (`src/core/scheduling.py`) over
the `(day, count)` pairs, zipped with their resolved target dates.  `card_index` is
the running cursor into `flash_cards`; a day's cards are read at offsets
`(card_index + i) % len(flash_cards)` and the cursor then advances by the number of
events actually created, reduced modulo the list length exactly as in the source.
Indexing an empty list raises `ZeroDivisionError` in the source (`% 0`), embedded as
the error branch.  One element of `rnds` is consumed per distribution entry. -/
def from_distribution_go (schedule : Schedule) (flash_cards : List FlashCard)
    (minutes_in_window : Int) :
    List ((String × Int) × Int) → Nat → List Int → List (List (Int × List Int)) →
    Except String (List ScheduledEvent × List Int)
  | [], _, session, _ => .ok ([], session)
  | _ :: _, _, session, [] => .ok ([], session)
  | ((_, count), target_date) :: rest, card_index, session, rnds :: rnds_rest =>
    if count ≤ 0 then
      from_distribution_go schedule flash_cards minutes_in_window rest card_index
        session rnds_rest
    else if flash_cards.length = 0 then
      .error "integer modulo by zero"
    else
      let cards_to_schedule := (List.range count.toNat).map
        (fun i => flash_cards.getD ((card_index + i) % flash_cards.length) default)
      let day_result := schedule_events_for_day session schedule cards_to_schedule
        target_date minutes_in_window rnds
      match from_distribution_go schedule flash_cards minutes_in_window rest
          ((card_index + day_result.2.1) % flash_cards.length) day_result.2.2
          rnds_rest with
      | .ok (events, final_session) => .ok (day_result.1 ++ events, final_session)
      | .error e => .error e

/-- `schedule_events_from_distribution` from `src/core/scheduling.py`: resolve the
target date of every distribution key up front (`get_next_occurrence_dates`), then
run the per-day loop starting with the cursor at zero.  The per-key date lookup of
the source's dict is positional here, which coincides with it because the
distribution dictionary's keys are unique. -/
def schedule_events_from_distribution (session : List Int) (schedule : Schedule)
    (flash_cards : List FlashCard) (distribution : List (String × Int)) (today : Int)
    (rnds : List (List (Int × List Int))) :
    Except String (List ScheduledEvent × List Int) :=
  match get_next_occurrence_dates distribution today with
  | .error e => .error e
  | .ok day_dates =>
    from_distribution_go schedule flash_cards
      (calculate_minutes_in_schedule_window schedule)
      (distribution.zip (day_dates.map Prod.snd)) 0 session rnds

/-- C2 (evaluation of the code at the failing input): on a Monday (`today = 0` under
the Monday epoch, weekday 0) the key `'Mon'` resolves to `today + 7`, the *next
week's* Monday, although today's weekday already matches — `get_days_until` adds 7
whenever `days_ahead <= 0`, so its range is 1..7, contradicting both the claim and
the source docstring ("Returns: Number of days until next occurrence (0-6)"). -/
theorem claim_C2_code_eval :
    get_days_until 0 "Mon" = some 7 ∧ (0 : Int).emod 7 = 0 ∧
    day_number "Mon" = some 0 ∧
    get_next_occurrence_dates [("Mon", 1)] 0 = .ok [("Mon", 7)] :=
  ⟨rfl, rfl, rfl, rfl⟩

theorem is_time_slot_available_iff (session : List Int) (t : Int) :
    is_time_slot_available session t = true ↔ t ∉ session := by
  simp [is_time_slot_available]

theorem schedule_random_time_event_not_mem (session : List Int) (schedule : Schedule)
    (card : FlashCard) (target_date minutes_in_window : Int) (draws : List Int)
    (ev : ScheduledEvent)
    (h : schedule_random_time_event session schedule card target_date minutes_in_window
      draws = some ev) : ev.scheduled_datetime ∉ session := by
  induction draws with
  | nil => simp [schedule_random_time_event] at h
  | cons m rest ih =>
    simp only [schedule_random_time_event] at h
    by_cases hav : is_time_slot_available session
        (target_date * 1440 + schedule.start_hour * 60 + m) = true
    · rw [if_pos hav] at h
      cases h
      exact (is_time_slot_available_iff _ _).1 hav
    · rw [if_neg hav] at h
      exact ih h

theorem fixed_interval_scan_sound (session : List Int) (schedule : Schedule)
    (card : FlashCard) (base_time minutes_in_window : Int) (fuel : Nat) :
    ∀ (current_minute : Int) (ev : ScheduledEvent),
      fixed_interval_scan session schedule card base_time minutes_in_window fuel
        current_minute = some ev →
      ev.scheduled_datetime ∉ session ∧
      ev.scheduled_datetime - base_time < minutes_in_window ∧
      ((∀ iv, schedule.interval_minutes = some iv → 0 ≤ iv) →
        current_minute ≤ ev.scheduled_datetime - base_time) := by
  induction fuel with
  | zero => intro m ev h; simp [fixed_interval_scan] at h
  | succ n ih =>
    intro m ev h
    simp only [fixed_interval_scan] at h
    by_cases hlt : m < minutes_in_window
    · rw [if_pos hlt] at h
      by_cases hav : is_time_slot_available session (base_time + m) = true
      · rw [if_pos hav] at h
        cases h
        exact ⟨(is_time_slot_available_iff _ _).1 hav, by simpa using hlt,
          fun _ => by simp⟩
      · rw [if_neg hav] at h
        cases hiv : schedule.interval_minutes with
        | none => rw [hiv] at h; exact absurd h (by simp)
        | some iv =>
          rw [hiv] at h
          obtain ⟨h1, h2, h3⟩ := ih (m + iv) ev h
          refine ⟨h1, h2, fun hnn => ?_⟩
          have hge : 0 ≤ iv := hnn iv rfl
          have h3' := h3 (fun iv' h' => hnn iv' (by rw [← hiv]; exact h'))
          omega
    · rw [if_neg hlt] at h
      exact absurd h (by simp)

theorem dispatch_strategy_not_mem (session : List Int) (schedule : Schedule)
    (card : FlashCard) (target_date minutes_in_window : Int) (rnd : Int × List Int)
    (ev : ScheduledEvent)
    (h : dispatch_strategy session schedule card target_date minutes_in_window rnd =
      some ev) : ev.scheduled_datetime ∉ session := by
  unfold dispatch_strategy at h
  by_cases hm : schedule.frequency_mode = FrequencyMode.FIXED_INTERVAL
  · rw [if_pos hm] at h
    unfold schedule_fixed_interval_event at h
    exact (fixed_interval_scan_sound _ _ _ _ _ _ _ _ h).1
  · rw [if_neg hm] at h
    exact schedule_random_time_event_not_mem _ _ _ _ _ _ _ h

theorem schedule_events_for_day_sound (schedule : Schedule)
    (target_date minutes_in_window : Int) (cards : List FlashCard) :
    ∀ (rnds : List (Int × List Int)) (session : List Int) (evs : List ScheduledEvent)
      (cnt : Nat) (session' : List Int),
      schedule_events_for_day session schedule cards target_date minutes_in_window
        rnds = (evs, cnt, session') →
      session' = session ++ evs.map (fun e => e.scheduled_datetime) ∧
      (∀ d ∈ evs.map (fun e => e.scheduled_datetime), d ∉ session) ∧
      (evs.map (fun e => e.scheduled_datetime)).Nodup := by
  induction cards with
  | nil =>
    intro rnds session evs cnt s' h
    simp only [schedule_events_for_day, Prod.mk.injEq] at h
    obtain ⟨rfl, -, rfl⟩ := h
    simp
  | cons card rest ih =>
    intro rnds session evs cnt s' h
    cases rnds with
    | nil =>
      simp only [schedule_events_for_day, Prod.mk.injEq] at h
      obtain ⟨rfl, -, rfl⟩ := h
      simp
    | cons rnd rnds_rest =>
      simp only [schedule_events_for_day] at h
      cases hd : dispatch_strategy session schedule card target_date minutes_in_window
          rnd with
      | none =>
        rw [hd] at h
        simp only [Prod.mk.injEq] at h
        obtain ⟨rfl, -, rfl⟩ := h
        simp
      | some new_event =>
        rw [hd] at h
        simp only [Prod.mk.injEq] at h
        obtain ⟨rfl, -, rfl⟩ := h
        obtain ⟨ha, hb, hc⟩ := ih rnds_rest
          (session ++ [new_event.scheduled_datetime]) _ _ _ rfl
        have hnm : new_event.scheduled_datetime ∉ session :=
          dispatch_strategy_not_mem _ _ _ _ _ _ _ hd
        refine ⟨?_, ?_, ?_⟩
        · rw [ha, List.append_assoc]
          simp
        · intro d hdmem
          simp only [List.map_cons, List.mem_cons] at hdmem
          rcases hdmem with rfl | hdm
          · exact hnm
          · have := hb d hdm
            simp only [List.mem_append] at this
            exact fun hds => this (Or.inl hds)
        · simp only [List.map_cons, List.nodup_cons]
          refine ⟨fun hmem => ?_, hc⟩
          have := hb _ hmem
          simp at this

theorem from_distribution_go_sound (schedule : Schedule) (flash_cards : List FlashCard)
    (minutes_in_window : Int) (entries : List ((String × Int) × Int)) :
    ∀ (card_index : Nat) (session : List Int) (rnds : List (List (Int × List Int)))
      (events : List ScheduledEvent) (session' : List Int),
      from_distribution_go schedule flash_cards minutes_in_window entries card_index
        session rnds = .ok (events, session') →
      session' = session ++ events.map (fun e => e.scheduled_datetime) ∧
      (∀ d ∈ events.map (fun e => e.scheduled_datetime), d ∉ session) ∧
      (events.map (fun e => e.scheduled_datetime)).Nodup := by
  induction entries with
  | nil =>
    intro idx session rnds events s' h
    simp only [from_distribution_go, Except.ok.injEq, Prod.mk.injEq] at h
    obtain ⟨rfl, rfl⟩ := h
    simp
  | cons entry rest ih =>
    intro idx session rnds events s' h
    obtain ⟨⟨day, count⟩, target_date⟩ := entry
    cases rnds with
    | nil =>
      simp only [from_distribution_go, Except.ok.injEq, Prod.mk.injEq] at h
      obtain ⟨rfl, rfl⟩ := h
      simp
    | cons rnd rnds_rest =>
      simp only [from_distribution_go] at h
      by_cases hcount : count ≤ 0
      · rw [if_pos hcount] at h
        exact ih idx session rnds_rest events s' h
      · rw [if_neg hcount] at h
        by_cases hlen : flash_cards.length = 0
        · rw [if_pos hlen] at h
          simp at h
        · rw [if_neg hlen] at h
          cases hrec : from_distribution_go schedule flash_cards minutes_in_window rest
              ((idx + (schedule_events_for_day session schedule
                ((List.range count.toNat).map (fun i => flash_cards.getD
                  ((idx + i) % flash_cards.length) default))
                target_date minutes_in_window rnd).2.1) % flash_cards.length)
              (schedule_events_for_day session schedule
                ((List.range count.toNat).map (fun i => flash_cards.getD
                  ((idx + i) % flash_cards.length) default))
                target_date minutes_in_window rnd).2.2 rnds_rest with
          | error e =>
            rw [hrec] at h
            simp at h
          | ok p =>
            obtain ⟨evs2, s2⟩ := p
            rw [hrec] at h
            simp only [Except.ok.injEq, Prod.mk.injEq] at h
            obtain ⟨rfl, rfl⟩ := h
            obtain ⟨ha1, hb1, hc1⟩ := schedule_events_for_day_sound schedule
              target_date minutes_in_window _ rnd session _ _ _ rfl
            obtain ⟨ha2, hb2, hc2⟩ := ih _ _ rnds_rest evs2 s2 hrec
            rw [ha1] at ha2 hb2
            refine ⟨?_, ?_, ?_⟩
            · rw [ha2, List.map_append, List.append_assoc]
            · intro d hdmem
              simp only [List.map_append, List.mem_append] at hdmem
              rcases hdmem with hdm | hdm
              · exact hb1 d hdm
              · have := hb2 d hdm
                simp only [List.mem_append] at this
                exact fun hds => this (Or.inl hds)
            · rw [List.map_append, List.nodup_append]
              refine ⟨hc1, hc2, fun a ha1' ha2' => ?_⟩
              have := hb2 a ha2'
              simp only [List.mem_append] at this
              exact this (Or.inr ha1')

/-- C3: within one planning run, slot placement never returns two Occurrences at the
identical scheduled datetime — the datetimes of all events created by
`schedule_events_from_distribution` (which makes the sequential
`schedule_events_for_day` calls) are pairwise distinct, and each of them passed the
occupancy check against the session the run started from. -/
theorem claim_C3 (session : List Int) (schedule : Schedule)
    (flash_cards : List FlashCard) (distribution : List (String × Int)) (today : Int)
    (rnds : List (List (Int × List Int))) (events : List ScheduledEvent)
    (session' : List Int)
    (h : schedule_events_from_distribution session schedule flash_cards distribution
      today rnds = .ok (events, session')) :
    (events.map (fun e => e.scheduled_datetime)).Nodup ∧
    ∀ e ∈ events, e.scheduled_datetime ∉ session := by
  unfold schedule_events_from_distribution at h
  cases hd : get_next_occurrence_dates distribution today with
  | error e => rw [hd] at h; simp at h
  | ok day_dates =>
    rw [hd] at h
    obtain ⟨-, hmem, hnd⟩ := from_distribution_go_sound schedule flash_cards _ _ _ _ _
      _ _ h
    exact ⟨hnd, fun e he => hmem _ (List.mem_map_of_mem _ he)⟩

/-- Concrete flash card used as a witness input. -/
def card0 : FlashCard :=
  { uuid := 10, category_uuid := some 1, category_priority := some 2, difficulty := 5,
    active := true }

/-- Witness for C3: a concrete two-event run on the Monday-only slice of `schedTPW`
(random-time strategy, draws 0 and 1) creates events at distinct datetimes, neither
of which was occupied at the start of the run. -/
theorem claim_C3_witness :
    (schedule_events_from_distribution [] schedTPW [card0] [("Mon", 2)] 0
        [[(0, [0]), (0, [1])]] =
      .ok ([⟨2, 10, 10620, .PENDING⟩, ⟨2, 10, 10621, .PENDING⟩], [10620, 10621])) ∧
    (([⟨2, 10, 10620, .PENDING⟩, ⟨2, 10, 10621, .PENDING⟩] : List ScheduledEvent).map
      (fun e => e.scheduled_datetime)).Nodup ∧
    ∀ e ∈ ([⟨2, 10, 10620, .PENDING⟩, ⟨2, 10, 10621, .PENDING⟩] :
      List ScheduledEvent), e.scheduled_datetime ∉ ([] : List Int) := by
  have h : schedule_events_from_distribution [] schedTPW [card0] [("Mon", 2)] 0
      [[(0, [0]), (0, [1])]] =
      .ok ([⟨2, 10, 10620, .PENDING⟩, ⟨2, 10, 10621, .PENDING⟩], [10620, 10621]) := rfl
  obtain ⟨h1, h2⟩ := claim_C3 _ _ _ _ _ _ _ _ h
  exact ⟨h, h1, h2⟩

theorem schedule_random_time_event_card (session : List Int) (schedule : Schedule)
    (card : FlashCard) (target_date minutes_in_window : Int) (draws : List Int)
    (ev : ScheduledEvent)
    (h : schedule_random_time_event session schedule card target_date minutes_in_window
      draws = some ev) : ev.flash_card_uuid = card.uuid := by
  induction draws with
  | nil => simp [schedule_random_time_event] at h
  | cons m rest ih =>
    simp only [schedule_random_time_event] at h
    by_cases hav : is_time_slot_available session
        (target_date * 1440 + schedule.start_hour * 60 + m) = true
    · rw [if_pos hav] at h
      cases h
      rfl
    · rw [if_neg hav] at h
      exact ih h

theorem schedule_random_time_event_mem (session : List Int) (schedule : Schedule)
    (card : FlashCard) (target_date minutes_in_window : Int) (draws : List Int)
    (ev : ScheduledEvent)
    (h : schedule_random_time_event session schedule card target_date minutes_in_window
      draws = some ev) :
    ∃ m ∈ draws, ev.scheduled_datetime =
      target_date * 1440 + schedule.start_hour * 60 + m := by
  induction draws with
  | nil => simp [schedule_random_time_event] at h
  | cons m rest ih =>
    simp only [schedule_random_time_event] at h
    by_cases hav : is_time_slot_available session
        (target_date * 1440 + schedule.start_hour * 60 + m) = true
    · rw [if_pos hav] at h
      cases h
      exact ⟨m, List.mem_cons_self _ _, rfl⟩
    · rw [if_neg hav] at h
      obtain ⟨m', hm', he⟩ := ih h
      exact ⟨m', List.mem_cons_of_mem _ hm', he⟩

theorem fixed_interval_scan_card (session : List Int) (schedule : Schedule)
    (card : FlashCard) (base_time minutes_in_window : Int) (fuel : Nat) :
    ∀ (current_minute : Int) (ev : ScheduledEvent),
      fixed_interval_scan session schedule card base_time minutes_in_window fuel
        current_minute = some ev → ev.flash_card_uuid = card.uuid := by
  induction fuel with
  | zero => intro m ev h; simp [fixed_interval_scan] at h
  | succ n ih =>
    intro m ev h
    simp only [fixed_interval_scan] at h
    by_cases hlt : m < minutes_in_window
    · rw [if_pos hlt] at h
      by_cases hav : is_time_slot_available session (base_time + m) = true
      · rw [if_pos hav] at h
        cases h
        rfl
      · rw [if_neg hav] at h
        cases hiv : schedule.interval_minutes with
        | none => rw [hiv] at h; exact absurd h (by simp)
        | some iv => rw [hiv] at h; exact ih (m + iv) ev h
    · rw [if_neg hlt] at h
      exact absurd h (by simp)

theorem dispatch_strategy_card (session : List Int) (schedule : Schedule)
    (card : FlashCard) (target_date minutes_in_window : Int) (rnd : Int × List Int)
    (ev : ScheduledEvent)
    (h : dispatch_strategy session schedule card target_date minutes_in_window rnd =
      some ev) : ev.flash_card_uuid = card.uuid := by
  unfold dispatch_strategy at h
  by_cases hm : schedule.frequency_mode = FrequencyMode.FIXED_INTERVAL
  · rw [if_pos hm] at h
    unfold schedule_fixed_interval_event at h
    exact fixed_interval_scan_card _ _ _ _ _ _ _ _ h
  · rw [if_neg hm] at h
    exact schedule_random_time_event_card _ _ _ _ _ _ _ h

/-- C6: per-day placement processes the day's cards in order and never raises (the
function is total and returns a normal value for every input).  The returned event
list is exactly the successfully placed prefix of the day's cards (its flash-card
uuids are the uuids of `cards.take cnt`), its length equals the returned
created-count, the count never exceeds the number of cards given, and whenever the
count falls short of the card list the next card's strategy call — against the
session as it stood after the placed prefix — returned no slot, so that card failed
and no later card of the day was attempted. -/
theorem claim_C6 (schedule : Schedule) (target_date minutes_in_window : Int)
    (cards : List FlashCard) (rnds : List (Int × List Int)) (session : List Int)
    (evs : List ScheduledEvent) (cnt : Nat) (session' : List Int)
    (hlen : cards.length ≤ rnds.length)
    (h : schedule_events_for_day session schedule cards target_date minutes_in_window
      rnds = (evs, cnt, session')) :
    evs.length = cnt ∧ cnt ≤ cards.length ∧
    evs.map (fun e => e.flash_card_uuid) = (cards.take cnt).map (fun c => c.uuid) ∧
    (cnt < cards.length →
      dispatch_strategy session' schedule (cards.getD cnt default) target_date
        minutes_in_window (rnds.getD cnt (0, [])) = none) := by
  induction cards generalizing rnds session evs cnt session' with
  | nil =>
    simp only [schedule_events_for_day, Prod.mk.injEq] at h
    obtain ⟨rfl, rfl, rfl⟩ := h
    simp
  | cons card rest ih =>
    cases rnds with
    | nil => simp at hlen
    | cons rnd rnds_rest =>
      simp only [schedule_events_for_day] at h
      cases hd : dispatch_strategy session schedule card target_date minutes_in_window
          rnd with
      | none =>
        rw [hd] at h
        simp only [Prod.mk.injEq] at h
        obtain ⟨rfl, rfl, rfl⟩ := h
        exact ⟨rfl, Nat.zero_le _, by simp, fun _ => hd⟩
      | some new_event =>
        rw [hd] at h
        simp only [Prod.mk.injEq] at h
        obtain ⟨rfl, rfl, rfl⟩ := h
        have hlen' : rest.length ≤ rnds_rest.length := by
          simpa using Nat.le_of_succ_le_succ (by simpa using hlen)
        obtain ⟨ih1, ih2, ih3, ih4⟩ := ih rnds_rest
          (session ++ [new_event.scheduled_datetime]) _ _ _ hlen' rfl
        refine ⟨by simpa using ih1, by simpa using Nat.succ_le_succ ih2, ?_, ?_⟩
        · simp only [List.map_cons, List.take_succ_cons]
          rw [dispatch_strategy_card _ _ _ _ _ _ _ hd, ih3]
        · intro hlt
          have hlt' := Nat.lt_of_succ_lt_succ (by simpa using hlt)
          simpa using ih4 hlt'

/-- Witness for C6: with two copies of the same card on one day and a single random
draw each, the first placement succeeds at minute 0 and the second finds the slot
occupied, so the run stops after a one-event prefix with count 1 < 2. -/
theorem claim_C6_witness :
    (([card0, card0] : List FlashCard).length ≤
      ([(0, [0]), (0, [0])] : List (Int × List Int)).length) ∧
    (schedule_events_for_day [] schedTPW [card0, card0] 0 480 [(0, [0]), (0, [0])] =
      ([⟨2, 10, 540, .PENDING⟩], 1, [540])) ∧
    ([⟨2, 10, 540, .PENDING⟩] : List ScheduledEvent).length = 1 ∧
    1 ≤ ([card0, card0] : List FlashCard).length ∧
    ([⟨2, 10, 540, .PENDING⟩] : List ScheduledEvent).map (fun e => e.flash_card_uuid) =
      (([card0, card0] : List FlashCard).take 1).map (fun c => c.uuid) ∧
    (1 < ([card0, card0] : List FlashCard).length →
      dispatch_strategy [540] schedTPW
        (([card0, card0] : List FlashCard).getD 1 default) 0 480
        (([(0, [0]), (0, [0])] : List (Int × List Int)).getD 1 (0, [])) = none) := by
  have h : schedule_events_for_day [] schedTPW [card0, card0] 0 480
      [(0, [0]), (0, [0])] = ([⟨2, 10, 540, .PENDING⟩], 1, [540]) := rfl
  obtain ⟨h1, h2, h3, h4⟩ := claim_C6 schedTPW 0 480 [card0, card0]
    [(0, [0]), (0, [0])] [] _ 1 [540] (by decide) h
  exact ⟨by decide, h, h1, h2, h3, h4⟩

/-- C10: every ScheduledEvent returned by either placement strategy lands on the
target date inside the policy's half-open window: a fixed-interval event is at least
5 minutes after window open (the scan seed is drawn from `randint(5, 25)` and the
interval only moves it forward) and strictly before window close; a random-time
event is at or after window open and strictly before window close, since its minute
draws come from `randint(0, minutes_in_window - 1)`.  With the 24-hour constraints
on the window hours, both kinds of event also lie on the given target date. -/
theorem claim_C10 (session : List Int) (schedule : Schedule) (card : FlashCard)
    (target_date : Int) (start_minute : Int) (draws : List Int)
    (hsm : 5 ≤ start_minute)
    (hiv : ∀ iv, schedule.interval_minutes = some iv → 0 ≤ iv)
    (hs0 : 0 ≤ schedule.start_hour) (he24 : schedule.end_hour ≤ 24)
    (hdraws : ∀ m ∈ draws, 0 ≤ m ∧ m < calculate_minutes_in_schedule_window schedule) :
    (∀ ev, schedule_fixed_interval_event session schedule card target_date
        (calculate_minutes_in_schedule_window schedule) start_minute = some ev →
      target_date * 1440 + schedule.start_hour * 60 + 5 ≤ ev.scheduled_datetime ∧
      ev.scheduled_datetime < target_date * 1440 + schedule.end_hour * 60 ∧
      target_date * 1440 ≤ ev.scheduled_datetime ∧
      ev.scheduled_datetime < (target_date + 1) * 1440) ∧
    (∀ ev, schedule_random_time_event session schedule card target_date
        (calculate_minutes_in_schedule_window schedule) draws = some ev →
      target_date * 1440 + schedule.start_hour * 60 ≤ ev.scheduled_datetime ∧
      ev.scheduled_datetime < target_date * 1440 + schedule.end_hour * 60 ∧
      target_date * 1440 ≤ ev.scheduled_datetime ∧
      ev.scheduled_datetime < (target_date + 1) * 1440) := by
  constructor
  · intro ev h
    unfold schedule_fixed_interval_event at h
    obtain ⟨-, hup, hlow⟩ := fixed_interval_scan_sound _ _ _ _ _ _ _ _ h
    have hlow' := hlow hiv
    simp only [calculate_minutes_in_schedule_window] at hup
    omega
  · intro ev h
    obtain ⟨m, hm, he⟩ := schedule_random_time_event_mem _ _ _ _ _ _ _ h
    obtain ⟨hm0, hmw⟩ := hdraws m hm
    simp only [calculate_minutes_in_schedule_window] at hmw
    omega

/-- Witness for C10: on `schedFI` (window 09:00-17:00) a fixed-interval placement
seeded at minute 5 lands at 545 and a random-time placement with draw 0 lands at
540; both lie inside the window. -/
theorem claim_C10_witness :
    (5 : Int) ≤ 5 ∧
    schedule_fixed_interval_event [] schedFI card0 0
      (calculate_minutes_in_schedule_window schedFI) 5 =
        some ⟨1, 10, 545, .PENDING⟩ ∧
    schedule_random_time_event [] schedFI card0 0
      (calculate_minutes_in_schedule_window schedFI) [0] =
        some ⟨1, 10, 540, .PENDING⟩ ∧
    ((0 : Int) * 1440 + schedFI.start_hour * 60 + 5 ≤
        (⟨1, 10, 545, .PENDING⟩ : ScheduledEvent).scheduled_datetime ∧
      (⟨1, 10, 545, .PENDING⟩ : ScheduledEvent).scheduled_datetime <
        (0 : Int) * 1440 + schedFI.end_hour * 60 ∧
      (0 : Int) * 1440 ≤ (⟨1, 10, 545, .PENDING⟩ : ScheduledEvent).scheduled_datetime ∧
      (⟨1, 10, 545, .PENDING⟩ : ScheduledEvent).scheduled_datetime <
        ((0 : Int) + 1) * 1440) ∧
    ((0 : Int) * 1440 + schedFI.start_hour * 60 ≤
        (⟨1, 10, 540, .PENDING⟩ : ScheduledEvent).scheduled_datetime ∧
      (⟨1, 10, 540, .PENDING⟩ : ScheduledEvent).scheduled_datetime <
        (0 : Int) * 1440 + schedFI.end_hour * 60 ∧
      (0 : Int) * 1440 ≤ (⟨1, 10, 540, .PENDING⟩ : ScheduledEvent).scheduled_datetime ∧
      (⟨1, 10, 540, .PENDING⟩ : ScheduledEvent).scheduled_datetime <
        ((0 : Int) + 1) * 1440) := by
  have hfix : schedule_fixed_interval_event [] schedFI card0 0
      (calculate_minutes_in_schedule_window schedFI) 5 =
      some ⟨1, 10, 545, .PENDING⟩ := rfl
  have hrand : schedule_random_time_event [] schedFI card0 0
      (calculate_minutes_in_schedule_window schedFI) [0] =
      some ⟨1, 10, 540, .PENDING⟩ := rfl
  have hc := claim_C10 [] schedFI card0 0 5 [0] (by decide)
    (fun iv h => by
      have h' : some (60 : Int) = some iv := h
      injection h' with h''
      omega)
    (by decide) (by decide)
    (fun m hm => by
      have hm' : m = 0 := by simpa using hm
      subst hm'
      exact ⟨le_refl 0, by decide⟩)
  exact ⟨by decide, hfix, hrand, hc.1 _ hfix, hc.2 _ hrand⟩

/-- Modelled from the spec's words (§4.5 step 6), as the comparison point for the C5
refinement: "take the next `count` items from the selected list, cycling back to the
start of the list (modulo) if exhausted; run per-day placement; advance a running
cursor into the selected-items list by exactly the number of occurrences *actually
placed* that day (not the number attempted)".  It differs from the source
translation `from_distribution_go` only in keeping the running cursor as the plain
sum of placed counts, reduced modulo the list length at each read rather than after
each day. -/
def spec_cyclic_schedule_go (schedule : Schedule) (flash_cards : List FlashCard)
    (minutes_in_window : Int) :
    List ((String × Int) × Int) → Nat → List Int → List (List (Int × List Int)) →
    Except String (List ScheduledEvent × List Int)
  | [], _, session, _ => .ok ([], session)
  | _ :: _, _, session, [] => .ok ([], session)
  | ((_, count), target_date) :: rest, cursor, session, rnds :: rnds_rest =>
    if count ≤ 0 then
      spec_cyclic_schedule_go schedule flash_cards minutes_in_window rest cursor
        session rnds_rest
    else if flash_cards.length = 0 then
      .error "integer modulo by zero"
    else
      let cards_to_schedule := (List.range count.toNat).map
        (fun i => flash_cards.getD ((cursor + i) % flash_cards.length) default)
      let day_result := schedule_events_for_day session schedule cards_to_schedule
        target_date minutes_in_window rnds
      match spec_cyclic_schedule_go schedule flash_cards minutes_in_window rest
          (cursor + day_result.2.1) day_result.2.2 rnds_rest with
      | .ok (events, final_session) => .ok (day_result.1 ++ events, final_session)
      | .error e => .error e

/-- The spec-worded counterpart of `schedule_events_from_distribution`, starting the
running cursor at zero. -/
def spec_cyclic_schedule (session : List Int) (schedule : Schedule)
    (flash_cards : List FlashCard) (distribution : List (String × Int)) (today : Int)
    (rnds : List (List (Int × List Int))) :
    Except String (List ScheduledEvent × List Int) :=
  match get_next_occurrence_dates distribution today with
  | .error e => .error e
  | .ok day_dates =>
    spec_cyclic_schedule_go schedule flash_cards
      (calculate_minutes_in_schedule_window schedule)
      (distribution.zip (day_dates.map Prod.snd)) 0 session rnds

theorem from_distribution_go_cursor_congr (schedule : Schedule)
    (flash_cards : List FlashCard) (minutes_in_window : Int)
    (entries : List ((String × Int) × Int)) :
    ∀ (c1 c2 : Nat) (session : List Int) (rnds : List (List (Int × List Int))),
      c1 % flash_cards.length = c2 % flash_cards.length →
      from_distribution_go schedule flash_cards minutes_in_window entries c1 session
        rnds =
      spec_cyclic_schedule_go schedule flash_cards minutes_in_window entries c2
        session rnds := by
  induction entries with
  | nil => intro c1 c2 session rnds hc; rfl
  | cons entry rest ih =>
    intro c1 c2 session rnds hc
    obtain ⟨⟨day, count⟩, target_date⟩ := entry
    cases rnds with
    | nil => rfl
    | cons rnd rnds_rest =>
      simp only [from_distribution_go, spec_cyclic_schedule_go]
      by_cases hcount : count ≤ 0
      · rw [if_pos hcount, if_pos hcount]
        exact ih _ _ _ _ hc
      · rw [if_neg hcount, if_neg hcount]
        by_cases hlen : flash_cards.length = 0
        · rw [if_pos hlen, if_pos hlen]
        · rw [if_neg hlen, if_neg hlen]
          have hread : (fun i => flash_cards.getD ((c1 + i) % flash_cards.length)
              default) =
              (fun i => flash_cards.getD ((c2 + i) % flash_cards.length) default) := by
            funext i
            rw [Nat.add_mod c1 i, Nat.add_mod c2 i, hc]
          rw [hread]
          have hc' : ∀ cnt : Nat,
              ((c1 + cnt) % flash_cards.length) % flash_cards.length =
                (c2 + cnt) % flash_cards.length := by
            intro cnt
            rw [Nat.mod_mod_of_dvd _ (dvd_refl _), Nat.add_mod c1, Nat.add_mod c2, hc]
          rw [ih _ _ _ _ (hc' _)]

/-- C5: the source loop of `schedule_events_from_distribution` — which reads the
day's cards at offsets `(card_index + i) % len` and then sets
`card_index := (card_index + events_actually_created) % len` — computes exactly the
spec-worded cyclic schedule, in which the running cursor is the plain sum of the
per-day *actually placed* counts (not the attempted counts), reduced modulo the list
length at each read.  In particular a day that under-fills advances the cursor only
by what it created, so no card is skipped for later days. -/
theorem claim_C5 (session : List Int) (schedule : Schedule)
    (flash_cards : List FlashCard) (distribution : List (String × Int)) (today : Int)
    (rnds : List (List (Int × List Int))) :
    schedule_events_from_distribution session schedule flash_cards distribution today
      rnds =
    spec_cyclic_schedule session schedule flash_cards distribution today rnds := by
  unfold schedule_events_from_distribution spec_cyclic_schedule
  cases get_next_occurrence_dates distribution today with
  | error e => rfl
  | ok day_dates => exact from_distribution_go_cursor_congr _ _ _ _ 0 0 _ _ rfl

/-- Default value of `CATEGORY_PRIORITY_WEIGHT` from `load_config` in
`src/core/config.py` (the category-priority exponent, "was alpha"). -/
noncomputable def CATEGORY_PRIORITY_WEIGHT : ℝ := 0.7

/-- Default value of `CARD_DIFFICULTY_WEIGHT` from `load_config` in
`src/core/config.py` (the difficulty exponent, "was beta"). -/
noncomputable def CARD_DIFFICULTY_WEIGHT : ℝ := 0.4

/-- Modelled from the spec: `FlashCard.calculate_weight` is called by
`select_weighted_cards` and exercised by
`src/tests/database/models/test_flash_card.py`, but its definition is not among the
source files.  Spec §4.1: `weight(item) = priority(item.category) ^
categoryWeightExponent * difficulty(item) ^ difficultyWeightExponent`, failing when
the item has no resolvable category (the tests expect the message "Card must have an
associated category").  Python floats are modelled as real numbers. -/
noncomputable def calculate_weight (card : FlashCard) (alpha beta : ℝ) : Option ℝ :=
  match card.category_priority with
  | none => none
  | some priority => some ((priority : ℝ) ^ alpha * (card.difficulty : ℝ) ^ beta)

/-- `select_weighted_cards` from `src/core/scheduling.py`: an empty card list gives
an empty selection; otherwise every card's weight is computed up front — raising as
soon as a card has no resolvable category — and `random.choices` picks `count`
indices with probabilities proportional to the weights.  The numeric weights only
parameterise the random draw, so the embedding keeps the drawn indices as the oracle
`pick` (reduced modulo the population size, which `random.choices` guarantees) while
keeping the failure structure exactly. -/
def select_weighted_cards (cards : List FlashCard) (count : Int) (pick : Nat → Nat) :
    Except String (List FlashCard) :=
  if cards.isEmpty then .ok []
  else if cards.any (fun c => c.category_priority.isNone) then
    .error "Card must have an associated category"
  else
    .ok ((List.range count.toNat).map
      (fun i => cards.getD (pick i % cards.length) default))

/-- C4: for an item with a resolvable category the selection weight is
`priority ^ 0.7 * difficulty ^ 0.4` (the configured default exponents); it is
strictly increasing in category priority and in item difficulty with the other held
fixed; and weight computation fails for an item with no resolvable category, making
weighted selection fail with it. -/
theorem claim_C4 (p q d e : Int) (hp : 1 ≤ p) (hpq : p < q) (hd : 1 ≤ d) (hde : d < e)
    (u1 u2 : Nat) (c1 c2 : Option Nat) (a1 a2 : Bool) (bad : FlashCard)
    (hbad : bad.category_priority = none) :
    calculate_weight ⟨u1, c1, some p, d, a1⟩ CATEGORY_PRIORITY_WEIGHT
        CARD_DIFFICULTY_WEIGHT =
      some ((p : ℝ) ^ CATEGORY_PRIORITY_WEIGHT * (d : ℝ) ^ CARD_DIFFICULTY_WEIGHT) ∧
    (∀ w1 w2 : ℝ,
      calculate_weight ⟨u1, c1, some p, d, a1⟩ CATEGORY_PRIORITY_WEIGHT
        CARD_DIFFICULTY_WEIGHT = some w1 →
      calculate_weight ⟨u2, c2, some q, d, a2⟩ CATEGORY_PRIORITY_WEIGHT
        CARD_DIFFICULTY_WEIGHT = some w2 → w1 < w2) ∧
    (∀ w1 w2 : ℝ,
      calculate_weight ⟨u1, c1, some p, d, a1⟩ CATEGORY_PRIORITY_WEIGHT
        CARD_DIFFICULTY_WEIGHT = some w1 →
      calculate_weight ⟨u2, c2, some p, e, a2⟩ CATEGORY_PRIORITY_WEIGHT
        CARD_DIFFICULTY_WEIGHT = some w2 → w1 < w2) ∧
    calculate_weight bad CATEGORY_PRIORITY_WEIGHT CARD_DIFFICULTY_WEIGHT = none ∧
    select_weighted_cards [bad] 1 (fun _ => 0) =
      .error "Card must have an associated category" := by
  have hα : (0 : ℝ) < CATEGORY_PRIORITY_WEIGHT := by
    norm_num [CATEGORY_PRIORITY_WEIGHT]
  have hβ : (0 : ℝ) < CARD_DIFFICULTY_WEIGHT := by
    norm_num [CARD_DIFFICULTY_WEIGHT]
  have hp' : (1 : ℝ) ≤ (p : ℝ) := by exact_mod_cast hp
  have hpq' : (p : ℝ) < (q : ℝ) := by exact_mod_cast hpq
  have hd' : (1 : ℝ) ≤ (d : ℝ) := by exact_mod_cast hd
  have hde' : (d : ℝ) < (e : ℝ) := by exact_mod_cast hde
  have hp0 : (0 : ℝ) < (p : ℝ) := lt_of_lt_of_le one_pos hp'
  have hd0 : (0 : ℝ) < (d : ℝ) := lt_of_lt_of_le one_pos hd'
  refine ⟨rfl, ?_, ?_, ?_, ?_⟩
  · intro w1 w2 h1 h2
    simp only [calculate_weight, Option.some.injEq] at h1 h2
    rw [← h1, ← h2]
    exact mul_lt_mul_of_pos_right
      (Real.rpow_lt_rpow (le_of_lt hp0) hpq' hα)
      (Real.rpow_pos_of_pos hd0 _)
  · intro w1 w2 h1 h2
    simp only [calculate_weight, Option.some.injEq] at h1 h2
    rw [← h1, ← h2]
    exact mul_lt_mul_of_pos_left
      (Real.rpow_lt_rpow (le_of_lt hd0) hde' hβ)
      (Real.rpow_pos_of_pos hp0 _)
  · simp only [calculate_weight, hbad]
  · simp [select_weighted_cards, hbad]

/-- Witness for C4 at priorities 1 < 3 and difficulties 5 < 7, with the default
(empty-category) card as the failing item. -/
theorem claim_C4_witness :
    (1 : Int) ≤ 1 ∧ (1 : Int) < 3 ∧ (1 : Int) ≤ 5 ∧ (5 : Int) < 7 ∧
    (default : FlashCard).category_priority = none ∧
    (calculate_weight ⟨0, none, some 1, 5, true⟩ CATEGORY_PRIORITY_WEIGHT
        CARD_DIFFICULTY_WEIGHT =
      some ((1 : ℝ) ^ CATEGORY_PRIORITY_WEIGHT * (5 : ℝ) ^ CARD_DIFFICULTY_WEIGHT) ∧
    (∀ w1 w2 : ℝ,
      calculate_weight ⟨0, none, some 1, 5, true⟩ CATEGORY_PRIORITY_WEIGHT
        CARD_DIFFICULTY_WEIGHT = some w1 →
      calculate_weight ⟨0, none, some 3, 5, true⟩ CATEGORY_PRIORITY_WEIGHT
        CARD_DIFFICULTY_WEIGHT = some w2 → w1 < w2) ∧
    (∀ w1 w2 : ℝ,
      calculate_weight ⟨0, none, some 1, 5, true⟩ CATEGORY_PRIORITY_WEIGHT
        CARD_DIFFICULTY_WEIGHT = some w1 →
      calculate_weight ⟨0, none, some 1, 7, true⟩ CATEGORY_PRIORITY_WEIGHT
        CARD_DIFFICULTY_WEIGHT = some w2 → w1 < w2) ∧
    calculate_weight default CATEGORY_PRIORITY_WEIGHT CARD_DIFFICULTY_WEIGHT = none ∧
    select_weighted_cards [default] 1 (fun _ => 0) =
      .error "Card must have an associated category") := by
  have h := claim_C4 1 3 5 7 (by decide) (by decide) (by decide) (by decide)
    0 0 none none true true default rfl
  refine ⟨by decide, by decide, by decide, by decide, rfl, ?_⟩
  have hcast : ((1 : Int) : ℝ) = (1 : ℝ) := by norm_num
  have hcast5 : ((5 : Int) : ℝ) = (5 : ℝ) := by norm_num
  simpa [hcast, hcast5] using h

/-- `get_flash_cards` from `src/core/scheduling.py`: active flash cards, optionally
restricted to one category.  The session's flash-card table is the explicit list
`db`. -/
def get_flash_cards (db : List FlashCard) (category_uuid : Option Nat) :
    List FlashCard :=
  match category_uuid with
  | none => db.filter (fun card => card.active)
  | some c => db.filter (fun card => card.active && card.category_uuid == some c)

/-- The `session.get(FlashCard, uuid)` lookup used by the `CARD` scope of
`generate_schedule_events`: a primary-key lookup that yields `None` for an absent
identifier or no match. -/
def session_get (db : List FlashCard) (uuid : Option Nat) : Option FlashCard :=
  match uuid with
  | none => none
  | some u => db.find? (fun card => card.uuid == u)

/-- The bundle of random oracles one `generate_schedule_events` call consumes (see
the module comment for what each oracle stands for). -/
structure RandomSource where
  draw : Nat → Int
  pick : Nat → Nat
  sample : List String
  choice : Nat → String
  rnds : List (List (Int × List Int))

/-- `generate_schedule_events` from `src/core/scheduling.py`.  The source resolves
candidates by scope (`CARD` looks up the single referenced card, possibly `None`;
every other scope queries the active cards, restricted to the category under
`CATEGORY` scope), computes the totals *before* any emptiness check (so an invalid
policy raises even with no candidates), returns an empty selection when no cards or
no non-`None` cards exist, and otherwise selects weighted cards, builds the day
distribution and schedules it, returning the selected cards.  The created events
and the datetimes the session learned are returned as explicit state. -/
def generate_schedule_events (db : List FlashCard) (session : List Int)
    (schedule : Schedule) (rs : RandomSource) (today : Int) :
    Except String (List FlashCard × List ScheduledEvent × List Int) :=
  let category_uuid := if schedule.scope = Scope.CATEGORY then schedule.category_uuid
    else none
  let cards : List (Option FlashCard) :=
    if schedule.scope = Scope.CARD then [session_get db schedule.flash_card_uuid]
    else (get_flash_cards db category_uuid).map some
  match calculate_total_events_and_daily_counts schedule rs.draw with
  | .error e => .error e
  | .ok (amount_of_events, times_per_days) =>
    if cards.isEmpty then .ok ([], [], session)
    else
      let valid_cards := cards.reduceOption
      if valid_cards.isEmpty then .ok ([], [], session)
      else
        match select_weighted_cards valid_cards amount_of_events rs.pick with
        | .error e => .error e
        | .ok selected_cards =>
          match determine_weekly_event_distribution schedule amount_of_events
              times_per_days rs.sample rs.choice with
          | .error e => .error e
          | .ok distribution =>
            match schedule_events_from_distribution session schedule selected_cards
                distribution today rs.rnds with
            | .error e => .error e
            | .ok (events, session') => .ok (selected_cards, events, session')

/-- The loop of `generate_events_from_schedules` over the active schedules,
accumulating the count of processed (selected) cards and threading the session;
`srcs i` is the randomness the i-th schedule consumes. -/
def schedules_go (db : List FlashCard) (today : Int) :
    List Schedule → (Nat → RandomSource) → Nat → List Int → Nat → Except String Nat
  | [], _, _, _, total => .ok total
  | schedule :: rest, srcs, i, session, total =>
    match generate_schedule_events db session schedule (srcs i) today with
    | .error e => .error e
    | .ok (selected, _, session') =>
      schedules_go db today rest srcs (i + 1) session' (total + selected.length)

/-- `generate_events_from_schedules` from `src/core/scheduling.py`: run
`generate_schedule_events` for every active schedule and aggregate the processed
count, returning 0 outright when no schedule is active. -/
def generate_events_from_schedules (db : List FlashCard) (session : List Int)
    (schedules : List Schedule) (srcs : Nat → RandomSource) (today : Int) :
    Except String Nat :=
  let all_schedules := schedules.filter (fun s => s.active)
  if all_schedules.isEmpty then .ok 0
  else schedules_go db today all_schedules srcs 0 session 0

/-- The §3 Policy invariant on mode-specific parameters: the parameters of the
active mode are present and valid (`times_per_week` present; per-day bounds present
with `min <= max`; `interval_minutes` present and positive). -/
def valid_params (schedule : Schedule) : Bool :=
  if schedule.frequency_mode = FrequencyMode.TIMES_PER_WEEK then
    schedule.times_per_week.isSome
  else if schedule.frequency_mode = FrequencyMode.TIMES_PER_DAY then
    match schedule.min_times_per_day, schedule.max_times_per_day with
    | some mn, some mx => decide (mn ≤ mx)
    | _, _ => false
  else if schedule.frequency_mode = FrequencyMode.FIXED_INTERVAL then
    match schedule.interval_minutes with
    | some iv => decide (0 < iv)
    | none => false
  else false

theorem calculate_total_ok_of_valid (schedule : Schedule) (draw : Nat → Int)
    (h : valid_params schedule = true) :
    ∃ amount times_per_days,
      calculate_total_events_and_daily_counts schedule draw =
        .ok (amount, times_per_days) := by
  unfold valid_params at h
  unfold calculate_total_events_and_daily_counts
  by_cases h1 : schedule.frequency_mode = FrequencyMode.TIMES_PER_WEEK
  · rw [if_pos h1] at h ⊢
    cases htpw : schedule.times_per_week with
    | none => rw [htpw] at h; simp at h
    | some t => rw [htpw] at h; exact ⟨t, none, rfl⟩
  · rw [if_neg h1] at h ⊢
    by_cases h2 : schedule.frequency_mode = FrequencyMode.TIMES_PER_DAY
    · rw [if_pos h2] at h ⊢
      cases hmn : schedule.min_times_per_day with
      | none =>
        cases hmx : schedule.max_times_per_day with
        | none => rw [hmn, hmx] at h; simp at h
        | some mx => rw [hmn, hmx] at h; simp at h
      | some mn =>
        cases hmx : schedule.max_times_per_day with
        | none => rw [hmn, hmx] at h; simp at h
        | some mx =>
          rw [hmn, hmx] at h
          dsimp only [] at h
          dsimp only [] 
          have hle : mn ≤ mx := by simpa using h
          by_cases heq : mn = mx
          · exact ⟨mn * (schedule.allowed_days.length : Int), none,
              by rw [if_pos heq]⟩
          · refine ⟨(List.map draw (List.range schedule.allowed_days.length)).sum,
              some (List.map draw (List.range schedule.allowed_days.length)), ?_⟩
            rw [if_neg heq, if_neg (by omega)]
    · rw [if_neg h2] at h ⊢
      by_cases h3 : schedule.frequency_mode = FrequencyMode.FIXED_INTERVAL
      · rw [if_pos h3] at h ⊢
        cases hiv : schedule.interval_minutes with
        | none => rw [hiv] at h; simp at h
        | some iv =>
          rw [hiv] at h
          dsimp only [] at h
          dsimp only [] 
          have hpos : 0 < iv := by simpa using h
          exact ⟨(calculate_minutes_in_schedule_window schedule).fdiv iv *
            (schedule.allowed_days.length : Int), none, by rw [if_neg (by omega)]⟩
      · rw [if_neg h3] at h
        simp at h

/-- The candidate items `generate_schedule_events` resolves for a policy, after its
`None` filter: scope `CARD` yields the referenced card when it resolves, the other
scopes the active cards of the scope. -/
def resolved_candidates (db : List FlashCard) (schedule : Schedule) :
    List FlashCard :=
  let category_uuid := if schedule.scope = Scope.CATEGORY then schedule.category_uuid
    else none
  let cards : List (Option FlashCard) :=
    if schedule.scope = Scope.CARD then [session_get db schedule.flash_card_uuid]
    else (get_flash_cards db category_uuid).map some
  cards.reduceOption

/-- C9: a policy whose mode-specific parameters satisfy the Policy invariant but for
which no candidate items resolve (empty scope result, or an Item-scope reference
that does not resolve) plans to an empty selection with no created Occurrence, no
session change and no error; and planning over zero active policies returns the zero
aggregate count, not an error. -/
theorem claim_C9 (db : List FlashCard) (session : List Int) (schedule : Schedule)
    (rs : RandomSource) (today : Int) (schedules : List Schedule)
    (srcs : Nat → RandomSource)
    (hvalid : valid_params schedule = true)
    (hempty : resolved_candidates db schedule = [])
    (hactive : schedules.filter (fun s => s.active) = []) :
    generate_schedule_events db session schedule rs today = .ok ([], [], session) ∧
    generate_events_from_schedules db session schedules srcs today = .ok 0 := by
  constructor
  · unfold generate_schedule_events
    obtain ⟨amount, tpd, hcalc⟩ := calculate_total_ok_of_valid schedule rs.draw hvalid
    rw [hcalc]
    unfold resolved_candidates at hempty
    dsimp only [] at hempty ⊢
    by_cases hc : (if schedule.scope = Scope.CARD then
        [session_get db schedule.flash_card_uuid]
      else (get_flash_cards db (if schedule.scope = Scope.CATEGORY then
        schedule.category_uuid else none)).map some).isEmpty
    · rw [if_pos hc]
    · rw [if_neg hc, if_pos (by simpa [List.isEmpty_iff] using hempty)]
  · unfold generate_events_from_schedules
    rw [hactive]
    rfl

/-- Witness for C9: a valid TimesPerWeek policy over an empty card table plans to an
empty result, and a planning pass over an empty schedule list returns 0. -/
theorem claim_C9_witness :
    valid_params schedTPW = true ∧
    resolved_candidates [] schedTPW = [] ∧
    (([] : List Schedule).filter (fun s => s.active)) = [] ∧
    generate_schedule_events [] [] schedTPW
      ⟨fun _ => 0, fun _ => 0, [], fun _ => "Mon", []⟩ 0 = .ok ([], [], []) ∧
    generate_events_from_schedules [] [] [] (fun _ =>
      ⟨fun _ => 0, fun _ => 0, [], fun _ => "Mon", []⟩) 0 = .ok 0 := by
  obtain ⟨h1, h2⟩ := claim_C9 [] [] schedTPW
    ⟨fun _ => 0, fun _ => 0, [], fun _ => "Mon", []⟩ 0 []
    (fun _ => ⟨fun _ => 0, fun _ => 0, [], fun _ => "Mon", []⟩) rfl rfl rfl
  exact ⟨rfl, rfl, rfl, h1, h2⟩

end FlashCardsApp
